import Mathlib

/-!
Verification of the notebook document core of `term-notebook`
(`src/notebook.py`), a terminal notebook editor.

The embedding translates `Notebook` from `src/notebook.py`: the cell
container (an ordered widget list), the focus pointer `last_focused`,
path validation in `load_notebook`, the load/save mapping to the
`.ipynb` interchange format (`load_notebook` / `to_nb`), cell
insertion (`add_cell`), deletion (`action_delete_cell`), the run-all
loop of `on_button_pressed`, and the focus-event handler
`on_descendant_focus`.

The repository's cell widget classes (`code_cell.py`, `markdown_cell.py`)
and the kernel wrapper (`notebook_kernel.py`) are not part of the
sources; where their behaviour is needed it is modelled from the spec
and marked as such in the doc comment.
-/

set_option autoImplicit false

namespace TermNotebook

/-- An execution output record, kept opaque as text. -/
abbrev Output := String

/-- An in-memory cell: a Code cell (source, execution count, outputs) or a
Markdown (narrative) cell (source only), matching `CodeCell` / `MarkdownCell`
state as described by the spec's data model. -/
inductive Cell where
  | code (source : String) (execution_count : Option Int) (outputs : List Output)
  | markdown (source : String)
deriving DecidableEq, Repr

/-- A mounted cell widget: a widget identity plus the cell state. Textual
widgets are compared by identity; `wid` models that identity. -/
structure CellW where
  wid : Nat
  cell : Cell
deriving DecidableEq, Repr

/-- One serialized cell record of the interchange file. A field that is
`none` at the outer `Option` models a missing JSON key (reading it raises
`KeyError`). `execution_count`'s inner `Option` models JSON `null`. -/
structure NbRecord where
  cell_type : Option String
  source : Option String
  execution_count : Option (Option Int)
  outputs : Option (List Output)
deriving DecidableEq, Repr

/-- A parsed interchange (`.ipynb`) file: a free-form metadata mapping,
format version fields and the cell list. `none` models a missing key. -/
structure NbFile where
  metadata : List (String × String)
  nbformat : Option Int
  nbformat_minor : Option Int
  cells : Option (List NbRecord)
deriving DecidableEq, Repr

/-- The mutable `Notebook` widget state of `src/notebook.py`:
`path`, the `valid_notebook` reactive, `last_focused` (a widget reference,
modelled by id), the children of `cell_container`, and the private
serialization fields set in `__init__`. `next_id` is the supply of fresh
widget identities used when a new widget is constructed. -/
structure Notebook where
  path : String
  valid_notebook : Bool
  last_focused : Option Nat
  cells : List CellW
  metadata_ : Option (List (String × String))
  nbformat_ : Int
  nbformat_minor_ : Int
  next_id : Nat
deriving DecidableEq, Repr

/-- The sentinel path of a new unsaved document (`"new_empty_terminal_notebook"`
in `src/notebook.py`). -/
def sentinel : String := "new_empty_terminal_notebook"

/-- `Notebook.__init__`: stores the path, leaves the document valid
(`valid_notebook = reactive(True)`), no focus, no cells, `_metadata = None`,
`_nbformat = 4`, `_nbformat_minor = 5`. -/
def Notebook.init (path : String) : Notebook :=
  { path := path
    valid_notebook := true
    last_focused := none
    cells := []
    metadata_ := none
    nbformat_ := 4
    nbformat_minor_ := 5
    next_id := 0 }

/-- The extension part of `os.path.splitext(p)[1]` (POSIX): the extension
starts at the last dot of the basename, except that a run of leading dots
of the basename never starts an extension. -/
def pyExt (p : String) : String :=
  let base := (p.data.reverse.takeWhile (fun c => c ≠ '/')).reverse
  let stem := base.dropWhile (fun c => c = '.')
  if stem.contains '.' then
    String.mk ('.' :: (stem.reverse.takeWhile (fun c => c ≠ '.')).reverse)
  else
    ""

/-- Modelled from the spec: `CodeCell.from_nb` (`code_cell.py` is not in the
sources). Per the spec's data model and `load()` contract, a code record
carries `source`, `execution_count` and `outputs`; reading a missing key
raises `KeyError`. -/
def CodeCell.from_nb (r : NbRecord) : Except String Cell :=
  match r.source, r.execution_count, r.outputs with
  | some s, some ec, some os => .ok (.code s ec os)
  | _, _, _ => .error "KeyError"

/-- Modelled from the spec: `MarkdownCell.from_nb` (`markdown_cell.py` is not
in the sources). A narrative record carries only `source`; reading a missing
key raises `KeyError`. -/
def MarkdownCell.from_nb (r : NbRecord) : Except String Cell :=
  match r.source with
  | some s => .ok (.markdown s)
  | none => .error "KeyError"

/-- Modelled from the spec: a cell's own `to_nb` serializer (`to_record`),
living in `code_cell.py` / `markdown_cell.py`. A code cell serializes with
`cell_type "code"`, its source, execution count and outputs; a markdown cell
with `cell_type "markdown"` and its source. -/
def Cell.to_nb : Cell → NbRecord
  | .code s ec os => { cell_type := some "code", source := some s,
                       execution_count := some ec, outputs := some os }
  | .markdown s => { cell_type := some "markdown", source := some s,
                     execution_count := none, outputs := none }

/-- The cell loop of `Notebook.load_notebook` (src lines 146-152): for each
record, read `cell["cell_type"]` (KeyError if absent), construct a
`CodeCell` or `MarkdownCell` via `from_nb` and mount it; a record whose
`cell_type` is neither `"code"` nor `"markdown"` is skipped with no error.
Returns the cells mounted so far together with the error that aborted the
loop, if any: cells mounted before the error stay mounted. -/
def loadCellsAux : List NbRecord → List Cell → List Cell × Option String
  | [], acc => (acc, none)
  | r :: rs, acc =>
    match r.cell_type with
    | none => (acc, some "KeyError")
    | some t =>
      if t = "code" then
        match CodeCell.from_nb r with
        | .ok c => loadCellsAux rs (acc ++ [c])
        | .error e => (acc, some e)
      else if t = "markdown" then
        match MarkdownCell.from_nb r with
        | .ok c => loadCellsAux rs (acc ++ [c])
        | .error e => (acc, some e)
      else
        loadCellsAux rs acc

/-- Attach fresh widget identities `start, start+1, ...` to newly mounted
cells. -/
def attachIds (start : Nat) : List Cell → List CellW
  | [] => []
  | c :: cs => ⟨start, c⟩ :: attachIds (start + 1) cs

/-- `Notebook.load_notebook` (src lines 132-152). The filesystem is a map
from paths to parsed file contents; `none` means `os.path.exists` is false.
Sentinel path: return at once. Missing file or wrong extension: set
`valid_notebook := false`. Otherwise iterate `content["cells"]`
(KeyError if the key is missing), mounting the constructed cells.
Returns the updated notebook and the uncaught exception, if any. -/
def load_notebook (fs : String → Option NbFile) (nb : Notebook) :
    Notebook × Option String :=
  if nb.path = sentinel then (nb, none)
  else
    match fs nb.path with
    | none => ({ nb with valid_notebook := false }, none)
    | some file =>
      if pyExt nb.path ≠ ".ipynb" then ({ nb with valid_notebook := false }, none)
      else
        match file.cells with
        | none => (nb, some "KeyError")
        | some recs =>
          let res := loadCellsAux recs []
          ({ nb with cells := nb.cells ++ attachIds nb.next_id res.1,
                     next_id := nb.next_id + res.1.length }, res.2)

/-- `Notebook.to_nb` (src lines 173-209): metadata holds only the freshly
queried kernel info/spec/language info (the three accessor results are
parameters, as `notebook_kernel.py` is not in the sources), the format
version fields come from `_nbformat` / `_nbformat_minor`, and every child
of the cell container serializes through its own `to_nb`, in order. -/
def to_nb (kernel_info kernel_spec language_info : String) (nb : Notebook) :
    NbFile :=
  { metadata := [("kernel_info", kernel_info), ("kernel_spec", kernel_spec),
                 ("language_info", language_info)]
    nbformat := some nb.nbformat_
    nbformat_minor := some nb.nbformat_minor_
    cells := some (nb.cells.map (fun c => c.cell.to_nb)) }

/-- The mount position keyword of `add_cell` (`"after"` / `"before"`). -/
inductive Position where
  | before
  | after
deriving DecidableEq, Repr

/-- Insert `w` right after the first child whose identity is `a`;
`none` (Textual's `MountError`) when no child has that identity. -/
def insertAfterId (a : Nat) (w : CellW) : List CellW → Option (List CellW)
  | [] => none
  | c :: cs =>
    if c.wid = a then some (c :: w :: cs)
    else (insertAfterId a w cs).map (fun cs' => c :: cs')

/-- Insert `w` right before the first child whose identity is `a`;
`none` (Textual's `MountError`) when no child has that identity. -/
def insertBeforeId (a : Nat) (w : CellW) : List CellW → Option (List CellW)
  | [] => none
  | c :: cs =>
    if c.wid = a then some (w :: c :: cs)
    else (insertBeforeId a w cs).map (fun cs' => c :: cs')

/-- `VerticalScroll.mount(widget, before=anchor)` / `mount(widget, after=anchor)`:
with `anchor = None` (both keywords `None`) Textual appends the widget at the
end; otherwise it inserts adjacent to the anchor child. -/
def mountCell (cells : List CellW) (anchor : Option Nat) (pos : Position)
    (w : CellW) : Option (List CellW) :=
  match anchor with
  | none => some (cells ++ [w])
  | some a =>
    match pos with
    | .after => insertAfterId a w cells
    | .before => insertBeforeId a w cells

/-- The kind argument of `add_cell` (`CodeCell` or `MarkdownCell`). -/
inductive CellKind where
  | codeK
  | markdownK
deriving DecidableEq, Repr

/-- A freshly constructed cell widget's state: `CodeCell()` starts with empty
source, no execution count and no outputs; `MarkdownCell()` with empty source
(spec: `add_cell` "constructs an empty Cell of `kind`"). -/
def emptyCell : CellKind → Cell
  | .codeK => .code "" none []
  | .markdownK => .markdown ""

/-- `Notebook.add_cell` (src lines 154-171): build
`kwargs = {position: self.last_focused}`, construct the widget, mount it into
the cell container with those keywords, and if `last_focused` was falsy make
the new widget the focus. Returns the updated notebook and the new widget's
identity; `none` models a mount error (anchor not a child). Note: the source
performs no `valid_notebook` check here. -/
def add_cell (nb : Notebook) (k : CellKind) (pos : Position) :
    Option (Notebook × Nat) :=
  let w : CellW := ⟨nb.next_id, emptyCell k⟩
  match mountCell nb.cells nb.last_focused pos w with
  | none => none
  | some cells' =>
    if nb.last_focused.isNone then
      some ({ nb with cells := cells', last_focused := some w.wid,
                      next_id := nb.next_id + 1 }, w.wid)
    else
      some ({ nb with cells := cells', next_id := nb.next_id + 1 }, w.wid)

/-- `Notebook.action_delete_cell` (src lines 113-118): if `last_focused` is
truthy, call `.remove()` on it (detach that one widget from the container)
and set `last_focused = None`; otherwise do nothing. -/
def action_delete_cell (nb : Notebook) : Notebook :=
  match nb.last_focused with
  | some fid =>
    { nb with cells := nb.cells.eraseP (fun c => c.wid = fid),
              last_focused := none }
  | none => nb

/-- `Notebook.watch_valid_notebook` (src lines 120-124): the display state it
leaves on the button row, the header rule, the cell container and the
invalid-notebook label. -/
structure DisplayState where
  buttonRow : Bool
  headerRule : Bool
  cellContainer : Bool
  invalidLabel : Bool
deriving DecidableEq, Repr

/-- `watch_valid_notebook(is_valid)`: shows the editing widgets iff the
document is valid and the notice label iff it is not. -/
def watch_valid_notebook (is_valid : Bool) : DisplayState :=
  { buttonRow := is_valid
    headerRule := is_valid
    cellContainer := is_valid
    invalidLabel := !is_valid }

/-- Whether a cell is a `CodeCell` (the `isinstance(child, CodeCell)` test of
the run-all loop). -/
def isCodeCell : Cell → Bool
  | .code _ _ _ => true
  | .markdown _ => false

/-- Modelled from the spec: `CodeCell.run_cell` (`code_cell.py` is not in the
sources). Per the spec's `run_cell` contract: submit the cell's current
source to the kernel (`exec`); on success overwrite the cell's outputs and
execution count with the result; on failure leave the cell unchanged and
surface the error to the caller. -/
def run_cell (exec : String → Except String (List Output × Int)) :
    Cell → Except String Cell
  | .code src _ _ =>
    match exec src with
    | .ok res => .ok (.code src (some res.2) res.1)
    | .error e => .error e
  | .markdown s => .ok (.markdown s)

/-- The `"run-all"` branch of `Notebook.on_button_pressed` (src lines 91-94):
`for child in self.cell_container.children: if isinstance(child, CodeCell):
await child.run_cell()`. There is no exception handling: an error raised by
`run_cell` propagates, leaving the current and all remaining cells untouched.
Returns the cell list after the loop and the propagated error, if any. -/
def run_all (exec : String → Except String (List Output × Int)) :
    List CellW → List CellW × Option String
  | [] => ([], none)
  | c :: cs =>
    if isCodeCell c.cell then
      match run_cell exec c.cell with
      | .ok c' =>
        let res := run_all exec cs
        (⟨c.wid, c'⟩ :: res.1, res.2)
      | .error e => (c :: cs, some e)
    else
      let res := run_all exec cs
      (c :: res.1, res.2)

/-- The widget classes distinguished by `Notebook.on_descendant_focus`. -/
inductive WClass where
  | codeCellC
  | markdownCellC
  | codeAreaC
  | focusMarkdownC
  | textAreaC
  | buttonC
  | otherC
deriving DecidableEq, Repr

/-- A widget seen by the focus handler: an identity and its class. -/
structure WidgetN where
  wid : Nat
  cls : WClass
deriving DecidableEq, Repr

/-- Whether a widget class is a cell widget (`CodeCell` or `MarkdownCell`). -/
def isCellClass : WClass → Bool
  | .codeCellC => true
  | .markdownCellC => true
  | _ => false

/-- Whether a widget class is one of the inner editor widgets the handler
redirects through `widget.parent.parent` (`CodeArea`, `FocusMarkdown`,
`TextArea`). -/
def isAreaClass : WClass → Bool
  | .codeAreaC => true
  | .focusMarkdownC => true
  | .textAreaC => true
  | _ => false

/-- `Notebook.on_descendant_focus` (src lines 71-79): a `CodeCell` or
`MarkdownCell` becomes the focus directly; a `CodeArea`, `FocusMarkdown` or
`TextArea` is redirected to its grandparent (`gp`, the widget's
`parent.parent`); any other widget — buttons in particular — leaves
`last_focused` unchanged. -/
def on_descendant_focus (gp : WidgetN → WidgetN) (last : Option WidgetN)
    (w : WidgetN) : Option WidgetN :=
  if isCellClass w.cls then some w
  else if isAreaClass w.cls then some (gp w)
  else last

/-! ### Helper lemmas -/

/-- Records serialized by `Cell.to_nb` at the front of the record list are
deserialized back verbatim by the load loop, accumulating onto `acc`. -/
theorem loadCellsAux_map_append (cs : List Cell) (rs : List NbRecord)
    (acc : List Cell) :
    loadCellsAux (cs.map Cell.to_nb ++ rs) acc = loadCellsAux rs (acc ++ cs) := by
  induction cs generalizing acc with
  | nil => simp
  | cons c cs ih =>
    cases c with
    | code s ec os =>
      simp [loadCellsAux, Cell.to_nb, CodeCell.from_nb, ih]
    | markdown s =>
      simp [loadCellsAux, Cell.to_nb, MarkdownCell.from_nb, ih]

/-- Round trip of the cell loop: loading the serialization of a cell list
reproduces it exactly, with no error. -/
theorem loadCellsAux_roundtrip (cs : List Cell) (acc : List Cell) :
    loadCellsAux (cs.map Cell.to_nb) acc = (acc ++ cs, none) := by
  have h := loadCellsAux_map_append cs [] acc
  simpa [loadCellsAux] using h

/-- Attaching widget identities does not change the cell states. -/
theorem attachIds_map_cell (s : Nat) (cs : List Cell) :
    (attachIds s cs).map CellW.cell = cs := by
  induction cs generalizing s with
  | nil => rfl
  | cons c cs ih => simp [attachIds, ih]

/-- `load_notebook` never touches the serialization fields set in
`__init__` (`_metadata`, `_nbformat`, `_nbformat_minor`) nor the path. -/
theorem load_notebook_preserves_fields (fs : String → Option NbFile)
    (nb : Notebook) :
    (load_notebook fs nb).1.nbformat_ = nb.nbformat_ ∧
    (load_notebook fs nb).1.nbformat_minor_ = nb.nbformat_minor_ ∧
    (load_notebook fs nb).1.metadata_ = nb.metadata_ ∧
    (load_notebook fs nb).1.path = nb.path := by
  unfold load_notebook
  split
  · exact ⟨rfl, rfl, rfl, rfl⟩
  · split
    · exact ⟨rfl, rfl, rfl, rfl⟩
    · split
      · exact ⟨rfl, rfl, rfl, rfl⟩
      · split
        · exact ⟨rfl, rfl, rfl, rfl⟩
        · exact ⟨rfl, rfl, rfl, rfl⟩

/-! ### Claim theorems -/

/-- C10: every save writes `nbformat = 4` and `nbformat_minor = 5` (the
values fixed in `__init__`); a loaded file's own version fields are never
read, so this holds for every filesystem and hence for every loaded file
content. -/
theorem C10_format_version_fixed (fs : String → Option NbFile)
    (p ki ks li : String) :
    (to_nb ki ks li (load_notebook fs (Notebook.init p)).1).nbformat = some 4 ∧
    (to_nb ki ks li (load_notebook fs (Notebook.init p)).1).nbformat_minor
      = some 5 := by
  have h := load_notebook_preserves_fields fs (Notebook.init p)
  constructor
  · show some ((load_notebook fs (Notebook.init p)).1.nbformat_) = some 4
    rw [h.1]
    rfl
  · show some ((load_notebook fs (Notebook.init p)).1.nbformat_minor_) = some 5
    rw [h.2.1]
    rfl

/-- C2: starting from a valid document, `load_notebook` leaves the document
valid iff the path is the new-document sentinel, or it names an existing
file whose `os.path.splitext` extension is `.ipynb`; every other path marks
the document invalid. -/
theorem C2_validation_iff (fs : String → Option NbFile) (nb : Notebook)
    (h : nb.valid_notebook = true) :
    (load_notebook fs nb).1.valid_notebook = true ↔
      (nb.path = sentinel ∨
        ((fs nb.path).isSome = true ∧ pyExt nb.path = ".ipynb")) := by
  unfold load_notebook
  by_cases hs : nb.path = sentinel
  · simp [hs, h]
  · simp only [hs, if_false, if_neg, ite_false]
    cases hfs : fs nb.path with
    | none => simp [hs, h]
    | some file =>
      by_cases he : pyExt nb.path = ".ipynb"
      · cases hc : file.cells with
        | none => simp [he, h, hs, hc]
        | some recs => simp [he, h, hs, hc]
      · simp [he, h, hs]

/-- C2 witness: a path with a `.txt` extension on an existing file is
invalid; the sentinel path stays valid. -/
theorem C2_validation_iff_witness :
    ((Notebook.init "a.txt").valid_notebook = true ∧
      ¬((load_notebook
          (fun q => if q = "a.txt" then
              some { metadata := [], nbformat := some 4,
                     nbformat_minor := some 5, cells := some [] }
            else none)
          (Notebook.init "a.txt")).1.valid_notebook = true)) ∧
    ((Notebook.init sentinel).valid_notebook = true ∧
      (load_notebook (fun _ => none)
        (Notebook.init sentinel)).1.valid_notebook = true) := by
  constructor
  · refine ⟨by decide, ?_⟩
    rw [C2_validation_iff
      (fun q => if q = "a.txt" then
          some { metadata := [], nbformat := some 4,
                 nbformat_minor := some 5, cells := some [] }
        else none)
      (Notebook.init "a.txt") (by decide)]
    decide
  · refine ⟨by decide, ?_⟩
    rw [C2_validation_iff (fun _ => none) (Notebook.init sentinel) (by decide)]
    decide

/-- The cell loop undoes the per-cell serialization of mounted cells. -/
theorem loadCellsAux_comp (cs : List CellW) :
    loadCellsAux (cs.map (fun c => c.cell.to_nb)) [] = (cs.map CellW.cell, none) := by
  have h := loadCellsAux_roundtrip (cs.map CellW.cell) []
  simpa [List.map_map, Function.comp] using h

/-- Every branch of `load_notebook` either leaves the validity flag untouched
or raises no error: an uncaught exception never comes with invalidation. -/
theorem load_notebook_valid_or_no_error (fs : String → Option NbFile)
    (nb : Notebook) :
    (load_notebook fs nb).1.valid_notebook = nb.valid_notebook ∨
      (load_notebook fs nb).2 = none := by
  unfold load_notebook
  split
  · exact .inl rfl
  · split
    · exact .inr rfl
    · split
      · exact .inr rfl
      · split
        · exact .inl rfl
        · exact .inl rfl

/-! ### Concrete fixtures -/

/-- A serialized code record: source `print(1)`, execution count 3, one
output. -/
def recCode : NbRecord :=
  { cell_type := some "code", source := some "print(1)",
    execution_count := some (some 3), outputs := some ["1"] }

/-- A serialized markdown record with source `hi`. -/
def recMd : NbRecord :=
  { cell_type := some "markdown", source := some "hi",
    execution_count := none, outputs := none }

/-- A record with no `cell_type` key at all. -/
def recNoType : NbRecord :=
  { cell_type := none, source := some "s",
    execution_count := none, outputs := none }

/-- A record with an unknown cell kind (`"raw"`). -/
def recRaw : NbRecord :=
  { cell_type := some "raw", source := some "r",
    execution_count := none, outputs := none }

/-- A well-formed interchange file with free-form metadata, its own format
version fields, one code record and one markdown record. -/
def fileA : NbFile :=
  { metadata := [("orig", "m")], nbformat := some 7, nbformat_minor := some 9,
    cells := some [recCode, recMd] }

/-- A filesystem where `a.ipynb` holds `fileA`. -/
def fsA : String → Option NbFile :=
  fun q => if q = "a.ipynb" then some fileA else none

/-- The document obtained by loading `a.ipynb` from `fsA`. -/
def docA : Notebook := (load_notebook fsA (Notebook.init "a.ipynb")).1

/-- A filesystem where `b.ipynb` holds the file written by saving `docA`. -/
def fsB : String → Option NbFile :=
  fun q => if q = "b.ipynb" then some (to_nb "ki" "ks" "li" docA) else none

/-- A structurally invalid file: its second record is missing `cell_type`. -/
def fileBad : NbFile :=
  { metadata := [], nbformat := some 4, nbformat_minor := some 5,
    cells := some [recCode, recNoType] }

/-- A filesystem where `b.ipynb` holds `fileBad`. -/
def fsBad : String → Option NbFile :=
  fun q => if q = "b.ipynb" then some fileBad else none

/-- C1: for a document `D` obtained by loading a file, saving `D` (`to_nb`)
and loading the saved file reproduces the same cell sequence — same order,
kinds, sources, outputs and execution counts — with no load error and a
valid document. -/
theorem C1_load_save_roundtrip (fs fs' : String → Option NbFile)
    (p p' ki ks li : String)
    (hp' : p' ≠ sentinel) (he : pyExt p' = ".ipynb")
    (hfs : fs' p'
      = some (to_nb ki ks li (load_notebook fs (Notebook.init p)).1)) :
    (load_notebook fs' (Notebook.init p')).1.cells.map CellW.cell
        = (load_notebook fs (Notebook.init p)).1.cells.map CellW.cell
    ∧ (load_notebook fs' (Notebook.init p')).2 = none
    ∧ (load_notebook fs' (Notebook.init p')).1.valid_notebook = true := by
  have hpath : (Notebook.init p').path = p' := rfl
  set d := (load_notebook fs (Notebook.init p)).1 with hd
  have key : load_notebook fs' (Notebook.init p')
      = ({ Notebook.init p' with
            cells := attachIds 0 (d.cells.map CellW.cell),
            next_id := (d.cells.map CellW.cell).length },
          none) := by
    unfold load_notebook
    rw [hpath, if_neg hp', hfs]
    simp [he, to_nb, loadCellsAux_comp, Notebook.init]
  rw [key]
  refine ⟨?_, rfl, rfl⟩
  simp [attachIds_map_cell]

/-- C1 witness: loading the concrete file `fileA`, saving the resulting
document to `b.ipynb` and loading that reproduces the same cells. -/
theorem C1_load_save_roundtrip_witness :
    ("b.ipynb" ≠ sentinel ∧ pyExt "b.ipynb" = ".ipynb"
      ∧ fsB "b.ipynb"
          = some (to_nb "ki" "ks" "li"
              (load_notebook fsA (Notebook.init "a.ipynb")).1))
    ∧ ((load_notebook fsB (Notebook.init "b.ipynb")).1.cells.map CellW.cell
        = (load_notebook fsA (Notebook.init "a.ipynb")).1.cells.map CellW.cell
      ∧ (load_notebook fsB (Notebook.init "b.ipynb")).2 = none
      ∧ (load_notebook fsB (Notebook.init "b.ipynb")).1.valid_notebook = true) :=
  ⟨⟨by decide, by decide, rfl⟩,
    C1_load_save_roundtrip fsA fsB "a.ipynb" "b.ipynb" "ki" "ks" "li"
      (by decide) (by decide) rfl⟩

/-- C8 counterexample: the free-form metadata entry `("orig", "m")` of the
loaded file `fileA` is not contained in the metadata written by save — the
load read no metadata (`_metadata` stays `None`) and `to_nb` writes only the
three kernel snapshots. -/
theorem C8_metadata_not_carried :
    ("orig", "m") ∈ fileA.metadata
    ∧ (load_notebook fsA (Notebook.init "a.ipynb")).2 = none
    ∧ (load_notebook fsA (Notebook.init "a.ipynb")).1.metadata_ = none
    ∧ ("orig", "m") ∉
        (to_nb "ki" "ks" "li"
          (load_notebook fsA (Notebook.init "a.ipynb")).1).metadata := by
  decide

/-- C8 amended: load leaves the document's `_metadata` field exactly as it
was (it never reads the file's metadata), and the metadata written by save
is exactly the three freshly queried kernel snapshots — free-form metadata
from the loaded file is not preserved. -/
theorem C8_metadata_fresh_only (fs : String → Option NbFile) (nb : Notebook)
    (ki ks li : String) :
    (load_notebook fs nb).1.metadata_ = nb.metadata_
    ∧ (to_nb ki ks li nb).metadata
        = [("kernel_info", ki), ("kernel_spec", ks), ("language_info", li)] :=
  ⟨(load_notebook_preserves_fields fs nb).2.2.1, rfl⟩

/-- C4 counterexample: loading `fileBad` (second record has no `cell_type`)
raises a plain `KeyError` — not a `CorruptDocumentError` — after the first
cell was already mounted, and leaves the document valid: the load is neither
complete (2 cells) nor empty-and-invalid, so a partial load is committed. -/
theorem C4_corrupt_load_keyerror :
    (load_notebook fsBad (Notebook.init "b.ipynb")).2 = some "KeyError"
    ∧ (load_notebook fsBad (Notebook.init "b.ipynb")).1.cells.map CellW.cell
        = [Cell.code "print(1)" (some 3) ["1"]]
    ∧ (load_notebook fsBad (Notebook.init "b.ipynb")).1.valid_notebook = true
    ∧ ¬((load_notebook fsBad (Notebook.init "b.ipynb")).1.cells.length = 2
        ∨ ((load_notebook fsBad (Notebook.init "b.ipynb")).1.cells = []
            ∧ (load_notebook fsBad (Notebook.init "b.ipynb")).1.valid_notebook
                = false)) := by
  decide

/-- C4 amended: on a record missing its `cell_type` key the load loop stops
with a plain `KeyError`, keeping every previously constructed cell mounted;
a record with an unknown cell kind is silently skipped with no error at all;
and an uncaught load error never marks the document invalid. -/
theorem C4_amended_load_errors :
    (∀ (pre : List Cell) (r : NbRecord) (rs : List NbRecord),
        r.cell_type = none →
        loadCellsAux (pre.map Cell.to_nb ++ r :: rs) [] = (pre, some "KeyError"))
    ∧ (∀ (r : NbRecord) (rs : List NbRecord) (acc : List Cell) (t : String),
        r.cell_type = some t → t ≠ "code" → t ≠ "markdown" →
        loadCellsAux (r :: rs) acc = loadCellsAux rs acc)
    ∧ (∀ (fs : String → Option NbFile) (nb : Notebook),
        (load_notebook fs nb).2.isSome = true →
        (load_notebook fs nb).1.valid_notebook = nb.valid_notebook) := by
  refine ⟨?_, ?_, ?_⟩
  · intro pre r rs hr
    rw [loadCellsAux_map_append]
    simp [loadCellsAux, hr]
  · intro r rs acc t ht h1 h2
    simp [loadCellsAux, ht, h1, h2]
  · intro fs nb h
    rcases load_notebook_valid_or_no_error fs nb with hv | hn
    · exact hv
    · rw [hn] at h
      simp at h

/-- C4 amended witness: a concrete run of each conjunct — the missing-key
abort after one markdown cell, the silent skip of a `"raw"` record, and the
still-valid document after the failing load of `fileBad`. -/
theorem C4_amended_load_errors_witness :
    (recNoType.cell_type = none
      ∧ loadCellsAux ([Cell.markdown "hi"].map Cell.to_nb ++ recNoType :: []) []
          = ([Cell.markdown "hi"], some "KeyError"))
    ∧ ((recRaw.cell_type = some "raw" ∧ "raw" ≠ "code" ∧ "raw" ≠ "markdown")
      ∧ loadCellsAux (recRaw :: []) [] = loadCellsAux [] [])
    ∧ ((load_notebook fsBad (Notebook.init "b.ipynb")).2.isSome = true
      ∧ (load_notebook fsBad (Notebook.init "b.ipynb")).1.valid_notebook
          = (Notebook.init "b.ipynb").valid_notebook) :=
  ⟨⟨by decide, C4_amended_load_errors.1 [Cell.markdown "hi"] recNoType []
      (by decide)⟩,
    ⟨⟨by decide, by decide, by decide⟩,
      C4_amended_load_errors.2.1 recRaw [] [] "raw" (by decide) (by decide)
        (by decide)⟩,
    ⟨by decide, C4_amended_load_errors.2.2 fsBad (Notebook.init "b.ipynb")
      (by decide)⟩⟩

/-- Inserting after an anchor that first occurs between `l` and `r` places
the new widget immediately after the anchor. -/
theorem insertAfterId_spec (l r : List CellW) (ac w : CellW) (a : Nat)
    (hid : ac.wid = a) (hl : a ∉ l.map CellW.wid) :
    insertAfterId a w (l ++ ac :: r) = some (l ++ ac :: w :: r) := by
  induction l with
  | nil => simp [insertAfterId, hid]
  | cons c cs ih =>
    simp only [List.map_cons, List.mem_cons] at hl
    push_neg at hl
    obtain ⟨h1, h2⟩ := hl
    simp only [List.cons_append, insertAfterId, List.append_eq]
    rw [if_neg (fun h => h1 h.symm), ih h2]
    rfl

/-- Inserting before an anchor that first occurs between `l` and `r` places
the new widget immediately before the anchor. -/
theorem insertBeforeId_spec (l r : List CellW) (ac w : CellW) (a : Nat)
    (hid : ac.wid = a) (hl : a ∉ l.map CellW.wid) :
    insertBeforeId a w (l ++ ac :: r) = some (l ++ w :: ac :: r) := by
  induction l with
  | nil => simp [insertBeforeId, hid]
  | cons c cs ih =>
    simp only [List.map_cons, List.mem_cons] at hl
    push_neg at hl
    obtain ⟨h1, h2⟩ := hl
    simp only [List.cons_append, insertBeforeId, List.append_eq]
    rw [if_neg (fun h => h1 h.symm), ih h2]
    rfl

/-- `eraseP` removes exactly the first element satisfying the predicate. -/
theorem erasePFirst (l r : List CellW) (fc : CellW) (p : CellW → Bool)
    (hl : ∀ c ∈ l, p c = false) (hfc : p fc = true) :
    (l ++ fc :: r).eraseP p = l ++ r := by
  induction l with
  | nil => simp [List.eraseP_cons, hfc]
  | cons c cs ih =>
    have hc := hl c (by simp)
    simp only [List.cons_append, List.eraseP_cons, hc, cond_false]
    rw [ih (fun x hx => hl x (by simp [hx]))]

/-- The document left invalid by pointing at a `.txt` path that does not
name an existing notebook file (the spec's scenario input). -/
def docTxt : Notebook := (load_notebook (fun _ => none) (Notebook.init "a.txt")).1

/-- C3 counterexample: on the invalid document `docTxt`, `add_cell` is not
rejected — there is no `InvalidDocumentError` anywhere in the code and
`add_cell` performs no validity check: it inserts the new cell. -/
theorem C3_invalid_add_cell_not_rejected :
    docTxt.valid_notebook = false
    ∧ (add_cell docTxt .codeK .after).isSome = true
    ∧ (add_cell docTxt .codeK .after).map (fun r => r.1.cells.map CellW.cell)
        = some [Cell.code "" none []] := by
  decide

/-- C3 amended: validation failure only hides the editing widgets and shows
the standing notice (`watch_valid_notebook`); `add_cell` itself is not
gated on validity — it performs exactly the same insertion whatever the
value of `valid_notebook`. -/
theorem C3_amended_no_validity_gate :
    watch_valid_notebook false
        = { buttonRow := false, headerRule := false, cellContainer := false,
            invalidLabel := true }
    ∧ ∀ (nb : Notebook) (k : CellKind) (pos : Position) (b : Bool),
        add_cell { nb with valid_notebook := b } k pos
          = (add_cell nb k pos).map
              (fun r => ({ r.1 with valid_notebook := b }, r.2)) := by
  refine ⟨rfl, ?_⟩
  intro nb k pos b
  unfold add_cell
  cases hf : nb.last_focused with
  | none =>
    cases hm : mountCell nb.cells none pos ⟨nb.next_id, emptyCell k⟩ with
    | none => simp [hf, hm]
    | some cells' => simp [hf, hm]
  | some a =>
    cases hm : mountCell nb.cells (some a) pos ⟨nb.next_id, emptyCell k⟩ with
    | none => simp [hf, hm]
    | some cells' => simp [hf, hm]

/-- A concrete notebook whose focus is its first cell (id 5). -/
def nbFoc : Notebook :=
  { path := sentinel, valid_notebook := true, last_focused := some 5,
    cells := [⟨5, .markdown "x"⟩, ⟨7, .code "y" none []⟩],
    metadata_ := none, nbformat_ := 4, nbformat_minor_ := 5, next_id := 8 }

/-- C6: `add_cell` with no prior focus appends the new cell at the end and
makes it the focus; with a focus anchor present in the container it inserts
the new cell immediately after (resp. before) the anchor and leaves the
focus unchanged. -/
theorem C6_add_cell_insertion :
    (∀ (nb : Notebook) (k : CellKind) (pos : Position),
        nb.last_focused = none →
        add_cell nb k pos
          = some ({ nb with cells := nb.cells ++ [⟨nb.next_id, emptyCell k⟩],
                            last_focused := some nb.next_id,
                            next_id := nb.next_id + 1 }, nb.next_id))
    ∧ (∀ (nb : Notebook) (k : CellKind) (a : Nat) (l r : List CellW) (ac : CellW),
        nb.last_focused = some a → nb.cells = l ++ ac :: r → ac.wid = a →
        a ∉ l.map CellW.wid →
        add_cell nb k .after
          = some ({ nb with cells := l ++ ac :: ⟨nb.next_id, emptyCell k⟩ :: r,
                            next_id := nb.next_id + 1 }, nb.next_id))
    ∧ (∀ (nb : Notebook) (k : CellKind) (a : Nat) (l r : List CellW) (ac : CellW),
        nb.last_focused = some a → nb.cells = l ++ ac :: r → ac.wid = a →
        a ∉ l.map CellW.wid →
        add_cell nb k .before
          = some ({ nb with cells := l ++ ⟨nb.next_id, emptyCell k⟩ :: ac :: r,
                            next_id := nb.next_id + 1 }, nb.next_id)) := by
  refine ⟨?_, ?_, ?_⟩
  · intro nb k pos hf
    unfold add_cell
    simp [hf, mountCell]
  · intro nb k a l r ac hf hcells hid hl
    unfold add_cell
    rw [hf]
    simp only [mountCell, hcells, insertAfterId_spec l r ac _ a hid hl,
      Option.isNone_some]
    rfl
  · intro nb k a l r ac hf hcells hid hl
    unfold add_cell
    rw [hf]
    simp only [mountCell, hcells, insertBeforeId_spec l r ac _ a hid hl,
      Option.isNone_some]
    rfl

/-- C6 witness: the bootstrap append on a fresh document and the anchored
insertion after the focused first cell of `nbFoc`. -/
theorem C6_add_cell_insertion_witness :
    ((Notebook.init "p").last_focused = none
      ∧ add_cell (Notebook.init "p") .codeK .after
          = some ({ Notebook.init "p" with
                      cells := [⟨0, emptyCell .codeK⟩],
                      last_focused := some 0, next_id := 1 }, 0))
    ∧ ((nbFoc.last_focused = some 5
          ∧ nbFoc.cells = [] ++ (⟨5, .markdown "x"⟩ : CellW) :: [⟨7, .code "y" none []⟩]
          ∧ (⟨5, Cell.markdown "x"⟩ : CellW).wid = 5
          ∧ 5 ∉ ([] : List CellW).map CellW.wid)
      ∧ add_cell nbFoc .markdownK .after
          = some ({ nbFoc with
                      cells := [] ++ (⟨5, .markdown "x"⟩ : CellW) ::
                        (⟨8, emptyCell .markdownK⟩ : CellW) :: [⟨7, .code "y" none []⟩],
                      next_id := 9 }, 8)) :=
  ⟨⟨rfl, C6_add_cell_insertion.1 (Notebook.init "p") .codeK .after rfl⟩,
    ⟨⟨rfl, rfl, rfl, by decide⟩,
      C6_add_cell_insertion.2.1 nbFoc .markdownK 5 []
        [⟨7, .code "y" none []⟩] ⟨5, .markdown "x"⟩ rfl rfl rfl (by decide)⟩⟩

/-- C7: deleting with a non-empty focus removes exactly the focused cell and
clears the focus (never selecting a successor); deleting with empty focus is
a no-op, and the whole action is idempotent. -/
theorem C7_delete_focused :
    (∀ (nb : Notebook) (f : Nat) (l r : List CellW) (fc : CellW),
        nb.last_focused = some f → nb.cells = l ++ fc :: r → fc.wid = f →
        (∀ c ∈ l, c.wid ≠ f) →
        action_delete_cell nb = { nb with cells := l ++ r, last_focused := none })
    ∧ (∀ nb : Notebook, nb.last_focused = none → action_delete_cell nb = nb)
    ∧ (∀ nb : Notebook,
        action_delete_cell (action_delete_cell nb) = action_delete_cell nb)
    ∧ (∀ nb : Notebook, nb.last_focused.isSome = true →
        (action_delete_cell nb).last_focused = none) := by
  refine ⟨?_, ?_, ?_, ?_⟩
  · intro nb f l r fc hf hcells hid hl
    have step : action_delete_cell nb
        = { nb with cells := nb.cells.eraseP (fun c => c.wid = f),
                    last_focused := none } := by
      unfold action_delete_cell
      rw [hf]
    rw [step, hcells,
      erasePFirst l r fc _ (fun c hc => by simp [hl c hc]) (by simp [hid])]
  · intro nb hf
    unfold action_delete_cell
    rw [hf]
  · intro nb
    cases hf : nb.last_focused with
    | none => simp [action_delete_cell, hf]
    | some f => simp [action_delete_cell, hf]
  · intro nb hf
    cases h : nb.last_focused with
    | none => rw [h] at hf; simp at hf
    | some f => simp [action_delete_cell, h]

/-- C7 witness: deleting the focused first cell of `nbFoc` removes it and
clears the focus; deleting on a fresh document is a no-op; both are
idempotent. -/
theorem C7_delete_focused_witness :
    ((nbFoc.last_focused = some 5
        ∧ nbFoc.cells = [] ++ (⟨5, .markdown "x"⟩ : CellW) :: [⟨7, .code "y" none []⟩]
        ∧ (⟨5, Cell.markdown "x"⟩ : CellW).wid = 5)
      ∧ action_delete_cell nbFoc
          = { nbFoc with cells := [] ++ [⟨7, .code "y" none []⟩],
                         last_focused := none })
    ∧ ((Notebook.init "p").last_focused = none
      ∧ action_delete_cell (Notebook.init "p") = Notebook.init "p")
    ∧ action_delete_cell (action_delete_cell nbFoc) = action_delete_cell nbFoc :=
  ⟨⟨⟨rfl, rfl, rfl⟩,
      C7_delete_focused.1 nbFoc 5 [] [⟨7, .code "y" none []⟩]
        ⟨5, .markdown "x"⟩ rfl rfl rfl (by intro c hc; simp at hc)⟩,
    ⟨rfl, C7_delete_focused.2.1 (Notebook.init "p") rfl⟩,
    C7_delete_focused.2.2.1 nbFoc⟩

/-- A kernel stub: executing `"ok"` yields output `"2"` with count 1; any
other source fails with `"boom"`. -/
def execStub : String → Except String (List Output × Int) :=
  fun s => if s = "ok" then .ok (["2"], 1) else .error "boom"

/-- Two code cells, the first of which fails under `execStub` while the
second would succeed. -/
def cellsC5 : List CellW := [⟨0, .code "boom" none []⟩, ⟨1, .code "ok" none []⟩]

/-- C5 counterexample: on `[C1(fails), C2(ok)]` the run-all loop stops at
the first failure — the error propagates immediately and the second code
cell is left unexecuted (its outputs and execution count unchanged), even
though running it alone would succeed. Nothing is collected or reported at
the end. -/
theorem C5_run_all_aborts_on_failure :
    run_all execStub cellsC5 = (cellsC5, some "boom")
    ∧ run_cell execStub (Cell.code "ok" none []) = .ok (.code "ok" (some 1) ["2"]) :=
  ⟨rfl, rfl⟩

/-- The updated state of one cell after a successful execution; a failing or
non-code cell is returned unchanged. -/
def runOkCell (exec : String → Except String (List Output × Int))
    (c : CellW) : CellW :=
  match run_cell exec c.cell with
  | .ok c' => ⟨c.wid, c'⟩
  | .error _ => c

/-- Whether running a cell under `exec` succeeds (markdown cells trivially
succeed: the loop never runs them). -/
def cellOk (exec : String → Except String (List Output × Int))
    (c : CellW) : Bool :=
  match run_cell exec c.cell with
  | .ok _ => true
  | .error _ => false

/-- One successful step of the run-all loop. -/
theorem run_all_cons_ok (exec : String → Except String (List Output × Int))
    (c : CellW) (cs : List CellW) (h : cellOk exec c = true) :
    run_all exec (c :: cs)
      = (runOkCell exec c :: (run_all exec cs).1, (run_all exec cs).2) := by
  obtain ⟨wid, cell⟩ := c
  cases cell with
  | code s ec os =>
    cases hrc : exec s with
    | ok res => simp [run_all, run_cell, hrc, runOkCell, isCodeCell]
    | error e =>
      exfalso
      simp [cellOk, run_cell, hrc] at h
  | markdown s => simp [run_all, run_cell, runOkCell, isCodeCell]

/-- C5 amended: the run-all loop visits the cell sequence in document order
and runs exactly the Code cells sequentially (non-Code cells are left
untouched); when every execution succeeds each code cell is updated in
place, but the first failing execution aborts the loop at once — the error
propagates and the failing cell and every cell after it are left
unattempted; no failure is collected or reported at the end. -/
theorem C5_amended_run_all_best_effort :
    (∀ (exec : String → Except String (List Output × Int)) (cs : List CellW),
        cs.all (cellOk exec) = true →
        run_all exec cs = (cs.map (runOkCell exec), none))
    ∧ (∀ (exec : String → Except String (List Output × Int))
        (pre : List CellW) (w : CellW) (rest : List CellW) (e : String),
        pre.all (cellOk exec) = true →
        isCodeCell w.cell = true → run_cell exec w.cell = .error e →
        run_all exec (pre ++ w :: rest)
          = (pre.map (runOkCell exec) ++ w :: rest, some e))
    ∧ (∀ (exec : String → Except String (List Output × Int)) (c : CellW),
        isCodeCell c.cell = false → runOkCell exec c = c) := by
  refine ⟨?_, ?_, ?_⟩
  · intro exec cs h
    induction cs with
    | nil => rfl
    | cons c cs ih =>
      rw [List.all_cons, Bool.and_eq_true] at h
      rw [run_all_cons_ok exec c cs h.1, ih h.2]
      rfl
  · intro exec pre w rest e hpre hw hrc
    induction pre with
    | nil =>
      obtain ⟨wid, cell⟩ := w
      cases cell with
      | code s ec os =>
        simp only [run_cell] at hrc
        simp [run_all, run_cell, isCodeCell]
        cases hex : exec s with
        | ok res => rw [hex] at hrc; simp at hrc
        | error e' =>
          rw [hex] at hrc
          injection hrc with h'
          simp [h']
      | markdown s => simp [isCodeCell] at hw
    | cons c cs ih =>
      rw [List.all_cons, Bool.and_eq_true] at hpre
      rw [List.cons_append, run_all_cons_ok exec c _ hpre.1, ih hpre.2]
      rfl
  · intro exec c hc
    obtain ⟨wid, cell⟩ := c
    cases cell with
    | code s ec os => simp [isCodeCell] at hc
    | markdown s => simp [runOkCell, run_cell]

/-- C5 amended witness: an all-success run updates the cell, a failing cell
in the middle aborts the loop leaving the suffix untouched, and a markdown
cell is never changed. -/
theorem C5_amended_run_all_best_effort_witness :
    (([⟨1, Cell.code "ok" none []⟩] : List CellW).all (cellOk execStub) = true
      ∧ run_all execStub [⟨1, .code "ok" none []⟩]
          = (([⟨1, Cell.code "ok" none []⟩] : List CellW).map (runOkCell execStub),
              none))
    ∧ ((isCodeCell (Cell.code "boom" none []) = true
        ∧ run_cell execStub (Cell.code "boom" none []) = .error "boom")
      ∧ run_all execStub
            ([⟨1, .code "ok" none []⟩] ++
              (⟨0, .code "boom" none []⟩ : CellW) :: [⟨2, .markdown "m"⟩])
          = (([⟨1, Cell.code "ok" none []⟩] : List CellW).map (runOkCell execStub)
              ++ (⟨0, .code "boom" none []⟩ : CellW) :: [⟨2, .markdown "m"⟩],
              some "boom"))
    ∧ (isCodeCell (Cell.markdown "m") = false
      ∧ runOkCell execStub ⟨2, .markdown "m"⟩ = ⟨2, .markdown "m"⟩) :=
  ⟨⟨by decide, C5_amended_run_all_best_effort.1 execStub _ (by decide)⟩,
    ⟨⟨by decide, rfl⟩,
      C5_amended_run_all_best_effort.2.1 execStub [⟨1, .code "ok" none []⟩]
        ⟨0, .code "boom" none []⟩ [⟨2, .markdown "m"⟩] "boom"
        (by decide) (by decide) rfl⟩,
    ⟨by decide,
      C5_amended_run_all_best_effort.2.2 execStub ⟨2, .markdown "m"⟩ (by decide)⟩⟩

/-- Whether the focus pointer refers to a cell currently in the container
(or is empty). -/
def focusIn (nb : Notebook) : Bool :=
  match nb.last_focused with
  | none => true
  | some i => nb.cells.any (fun c => c.wid = i)

/-- Whether a tracked focus target is empty or a cell widget. -/
def focusIsCell (last : Option WidgetN) : Bool :=
  match last with
  | none => true
  | some x => isCellClass x.cls

/-- Inserting after an anchor keeps every previous element in the list. -/
theorem insertAfterId_mem (a : Nat) (w : CellW) (cs : List CellW) :
    ∀ cs' : List CellW, insertAfterId a w cs = some cs' → ∀ x ∈ cs, x ∈ cs' := by
  induction cs with
  | nil => intro cs' h; simp [insertAfterId] at h
  | cons c cs ih =>
    intro cs' h x hx
    simp only [insertAfterId] at h
    by_cases hc : c.wid = a
    · rw [if_pos hc] at h
      injection h with h
      subst h
      rcases List.mem_cons.mp hx with rfl | hx'
      · exact List.mem_cons_self _ _
      · simp [hx']
    · rw [if_neg hc] at h
      cases hrec : insertAfterId a w cs with
      | none => rw [hrec] at h; simp at h
      | some cs'' =>
        rw [hrec] at h
        simp only [Option.map_some'] at h
        injection h with h
        subst h
        rcases List.mem_cons.mp hx with rfl | hx'
        · exact List.mem_cons_self _ _
        · exact List.mem_cons_of_mem _ (ih cs'' hrec x hx')

/-- Inserting before an anchor keeps every previous element in the list. -/
theorem insertBeforeId_mem (a : Nat) (w : CellW) (cs : List CellW) :
    ∀ cs' : List CellW, insertBeforeId a w cs = some cs' → ∀ x ∈ cs, x ∈ cs' := by
  induction cs with
  | nil => intro cs' h; simp [insertBeforeId] at h
  | cons c cs ih =>
    intro cs' h x hx
    simp only [insertBeforeId] at h
    by_cases hc : c.wid = a
    · rw [if_pos hc] at h
      injection h with h
      subst h
      rcases List.mem_cons.mp hx with rfl | hx'
      · simp
      · simp [hx']
    · rw [if_neg hc] at h
      cases hrec : insertBeforeId a w cs with
      | none => rw [hrec] at h; simp at h
      | some cs'' =>
        rw [hrec] at h
        simp only [Option.map_some'] at h
        injection h with h
        subst h
        rcases List.mem_cons.mp hx with rfl | hx'
        · exact List.mem_cons_self _ _
        · exact List.mem_cons_of_mem _ (ih cs'' hrec x hx')

/-- Mounting preserves every element already in the container. -/
theorem mountCell_mem (cells cells' : List CellW) (anchor : Option Nat)
    (pos : Position) (w : CellW)
    (h : mountCell cells anchor pos w = some cells') :
    ∀ x ∈ cells, x ∈ cells' := by
  intro x hx
  cases anchor with
  | none =>
    simp only [mountCell] at h
    injection h with h
    subst h
    simp [hx]
  | some a =>
    cases pos with
    | after => exact insertAfterId_mem a w cells cells' h x hx
    | before => exact insertBeforeId_mem a w cells cells' h x hx

/-- The expected result of adding a code cell after the focus of `nbFoc`. -/
def resFoc : Notebook × Nat :=
  ({ nbFoc with
      cells := [⟨5, .markdown "x"⟩, ⟨8, .code "" none []⟩, ⟨7, .code "y" none []⟩],
      next_id := 9 }, 8)

/-- C9: the focus pointer only ever holds a cell or is empty. Focus events
targeting a `CodeCell`/`MarkdownCell` adopt it; events targeting an inner
editor widget adopt its grandparent, a cell (the widget-tree shape of the
cell classes, modelled from the spec); any other widget — a button in
particular — leaves the focus unchanged. `add_cell` and
`action_delete_cell` keep the focus pointing at a cell of the container or
empty. -/
theorem C9_focus_always_cell :
    (∀ (gp : WidgetN → WidgetN) (last : Option WidgetN) (w : WidgetN),
        (∀ v, isAreaClass v.cls = true → isCellClass (gp v).cls = true) →
        focusIsCell last = true →
        focusIsCell (on_descendant_focus gp last w) = true)
    ∧ (∀ (gp : WidgetN → WidgetN) (last : Option WidgetN) (w : WidgetN),
        isCellClass w.cls = false → isAreaClass w.cls = false →
        on_descendant_focus gp last w = last)
    ∧ (∀ (nb : Notebook) (k : CellKind) (pos : Position) (res : Notebook × Nat),
        add_cell nb k pos = some res → focusIn nb = true → focusIn res.1 = true)
    ∧ (∀ nb : Notebook, focusIn nb = true → focusIn (action_delete_cell nb) = true) := by
  refine ⟨?_, ?_, ?_, ?_⟩
  · intro gp last w hgp hlast
    unfold on_descendant_focus
    cases hcell : isCellClass w.cls with
    | true => simp [focusIsCell, hcell]
    | false =>
      cases harea : isAreaClass w.cls with
      | true => simp [focusIsCell, hcell, harea, hgp w harea]
      | false => simpa [hcell, harea] using hlast
  · intro gp last w h1 h2
    unfold on_descendant_focus
    simp [h1, h2]
  · intro nb k pos res hadd hin
    unfold add_cell at hadd
    cases hf : nb.last_focused with
    | none =>
      rw [hf] at hadd
      simp only [mountCell, Option.isNone_none, if_true] at hadd
      injection hadd with hadd
      subst hadd
      simp [focusIn]
    | some a =>
      rw [hf] at hadd
      cases hm : mountCell nb.cells (some a) pos ⟨nb.next_id, emptyCell k⟩ with
      | none => simp [hm] at hadd
      | some cells' =>
        simp only [hm, Option.isNone_some, Bool.false_eq_true, if_false,
          Option.some.injEq] at hadd
        subst hadd
        simp only [focusIn, hf, List.any_eq_true, decide_eq_true_eq] at hin ⊢
        obtain ⟨c, hc, hca⟩ := hin
        exact ⟨c, mountCell_mem nb.cells cells' (some a) pos _ hm c hc, hca⟩
  · intro nb hin
    unfold action_delete_cell
    cases hf : nb.last_focused with
    | none => exact hin
    | some f => simp [focusIn]

/-- C9 witness: a focus event from a button leaves the (cell) focus
unchanged, an event from an editor area adopts its cell grandparent, and
adding/deleting on `nbFoc` keeps the focus a cell of the container or
empty. -/
theorem C9_focus_always_cell_witness :
    (focusIsCell (some ⟨1, .markdownCellC⟩) = true
      ∧ focusIsCell
          (on_descendant_focus (fun _ => ⟨100, .codeCellC⟩)
            (some ⟨1, .markdownCellC⟩) ⟨2, .buttonC⟩) = true)
    ∧ ((isCellClass WClass.buttonC = false ∧ isAreaClass WClass.buttonC = false)
      ∧ on_descendant_focus (fun _ => ⟨100, .codeCellC⟩)
          (some ⟨1, .markdownCellC⟩) ⟨2, .buttonC⟩ = some ⟨1, .markdownCellC⟩)
    ∧ ((add_cell nbFoc .codeK .after = some resFoc ∧ focusIn nbFoc = true)
      ∧ focusIn resFoc.1 = true)
    ∧ focusIn (action_delete_cell nbFoc) = true :=
  ⟨⟨rfl,
      C9_focus_always_cell.1 (fun _ => ⟨100, .codeCellC⟩)
        (some ⟨1, .markdownCellC⟩) ⟨2, .buttonC⟩ (fun _ _ => rfl) rfl⟩,
    ⟨⟨rfl, rfl⟩,
      C9_focus_always_cell.2.1 (fun _ => ⟨100, .codeCellC⟩)
        (some ⟨1, .markdownCellC⟩) ⟨2, .buttonC⟩ rfl rfl⟩,
    ⟨⟨by decide, by decide⟩,
      C9_focus_always_cell.2.2.1 nbFoc .codeK .after resFoc (by decide)
        (by decide)⟩,
    C9_focus_always_cell.2.2.2 nbFoc (by decide)⟩

end TermNotebook
